import Mathlib

/-!
Verification of the style-crawler pipeline (src/crawler.js, src/config.js).

Each JavaScript function relevant to the claims is shallowly embedded as a
Lean definition bearing the source name.  Strings are handled as `List Char`
internally; layout rectangles use `ℚ` (JS numbers restricted to the values
the claims exercise) with `Int.floor` for `Math.floor`; the filesystem and
browser are modelled as explicit inputs.
-/

namespace StyleCrawler

/-! ## URL normalization (buildUrlFileName, crawler.js lines 38-50)

`url.replace( /https?:\/\//, '' )` removes the first occurrence of
`https://` or `http://` (the regex is not anchored and not global);
`.replace( /\//g, '-' )` replaces every slash with a hyphen; then one
trailing hyphen, if present, is sliced off. -/

def httpsChars : List Char := ['h', 't', 't', 'p', 's', ':', '/', '/']

def httpChars : List Char := ['h', 't', 't', 'p', ':', '/', '/']

/-- First-occurrence removal of `https://` / `http://`, as the non-global
regex replace does: scan left to right, at each position try to match
`https://` then `http://`, remove the first match and stop. -/
def stripScheme : List Char → List Char
  | [] => []
  | c :: cs =>
    if (c :: cs).take 8 = httpsChars then (c :: cs).drop 8
    else if (c :: cs).take 7 = httpChars then (c :: cs).drop 7
    else c :: stripScheme cs

/-- Global replace of `/` by `-` (`.replace( /\//g, '-' )`). -/
def replaceSlashes (l : List Char) : List Char :=
  l.map (fun c => if c = '/' then '-' else c)

/-- The final `if ( url[ urlLength - 1 ] === '-' ) url = url.slice( 0, urlLength - 1 )`:
drop one trailing hyphen when present. -/
def trimTrailingHyphen (l : List Char) : List Char :=
  if l.getLast? = some '-' then l.dropLast else l

/-- Embedding of `buildUrlFileName` (crawler.js lines 38-50). -/
def buildUrlFileName (url : String) : String :=
  ⟨trimTrailingHyphen (replaceSlashes (stripScheme url.toList))⟩

/-- `screenshotDir = './data/' + urlFileName` (crawler.js line 447). -/
def screenshotDirOf (url : String) : String :=
  "./data/" ++ buildUrlFileName url

/-- Spec-side normalization, following the spec's words: strip the `http`
or `https` scheme prefix, replace every slash with a hyphen, trim a
trailing hyphen. -/
def dropSchemePrefix (l : List Char) : List Char :=
  if l.take 8 = httpsChars then l.drop 8
  else if l.take 7 = httpChars then l.drop 7
  else l

def specNormalizeUrl (url : String) : String :=
  ⟨trimTrailingHyphen (replaceSlashes (dropSchemePrefix url.toList))⟩

/-! ## Filesystem-safe tag (buildTagSafe, crawler.js lines 23-26)

`tag.split( ',' )[0].replace( ' ', '-' )`: first comma-separated component,
with only the FIRST space replaced by a hyphen (string-pattern `replace`
is not global). -/

/-- JS `String.prototype.split( ',' )`: split on every comma; the empty
string yields `[ '' ]`. -/
def splitOnComma : List Char → List (List Char)
  | [] => [[]]
  | c :: cs =>
    if c = ',' then [] :: splitOnComma cs
    else
      match splitOnComma cs with
      | [] => [[c]]
      | g :: gs => (c :: g) :: gs

/-- `tag.split( ',' )[0]`: the group's first comma-separated component. -/
def firstSelector (tag : String) : List Char :=
  (splitOnComma tag.toList).headD []

/-- JS `String.prototype.replace( ' ', '-' )`: replace the first space only. -/
def replaceFirstSpace : List Char → List Char
  | [] => []
  | c :: cs => if c = ' ' then '-' :: cs else c :: replaceFirstSpace cs

/-- Embedding of `buildTagSafe` (crawler.js lines 23-26). -/
def buildTagSafe (tag : String) : String :=
  ⟨replaceFirstSpace (firstSelector tag)⟩

/-- Spec-side identifier, following the spec's words: the group's first
selector with ALL whitespace removed. -/
def specTagSafe (tag : String) : String :=
  ⟨(firstSelector tag).filter (fun c => !c.isWhitespace)⟩

/-! ### Lemmas about the URL/tag string functions -/

theorem stripScheme_eq_dropSchemePrefix (l : List Char)
    (h : l.take 8 = httpsChars ∨ l.take 7 = httpChars) :
    stripScheme l = dropSchemePrefix l := by
  cases l with
  | nil => rcases h with h | h <;> simp [httpsChars, httpChars] at h
  | cons c cs =>
    by_cases h8 : (c :: cs).take 8 = httpsChars
    · simp [stripScheme, dropSchemePrefix, h8]
    · by_cases h7 : (c :: cs).take 7 = httpChars
      · simp [stripScheme, dropSchemePrefix, h8, h7]
      · rcases h with h | h <;> contradiction

theorem slash_not_mem_replaceSlashes (l : List Char) : '/' ∉ replaceSlashes l := by
  intro hm
  rcases List.mem_map.mp hm with ⟨c, _, hc⟩
  by_cases h : c = '/' <;> simp [h] at hc

theorem trimTrailingHyphen_subset (l : List Char) : trimTrailingHyphen l ⊆ l := by
  unfold trimTrailingHyphen
  split
  · exact (List.dropLast_sublist l).subset
  · exact fun _ h => h

theorem stripScheme_of_no_slash (l : List Char) (h : '/' ∉ l) : stripScheme l = l := by
  induction l with
  | nil => rfl
  | cons c cs ih =>
    have h8 : ¬ (c :: cs).take 8 = httpsChars := by
      intro he
      exact h (List.take_subset 8 (c :: cs) (he ▸ (by decide : '/' ∈ httpsChars)))
    have h7 : ¬ (c :: cs).take 7 = httpChars := by
      intro he
      exact h (List.take_subset 7 (c :: cs) (he ▸ (by decide : '/' ∈ httpChars)))
    have hcs : '/' ∉ cs := fun hm => h (List.mem_cons_of_mem _ hm)
    simp only [stripScheme]
    rw [if_neg h8, if_neg h7, ih hcs]

theorem replaceSlashes_of_no_slash (l : List Char) (h : '/' ∉ l) : replaceSlashes l = l := by
  induction l with
  | nil => rfl
  | cons c cs ih =>
    have hc : ¬ c = '/' := fun e => h (e ▸ List.mem_cons_self c cs)
    have hcs : '/' ∉ cs := fun hm => h (List.mem_cons_of_mem _ hm)
    simp [replaceSlashes, hc] at ih ⊢
    exact ih hcs

theorem replaceFirstSpace_of_no_space (l : List Char) (h : ' ' ∉ l) :
    replaceFirstSpace l = l := by
  induction l with
  | nil => rfl
  | cons c cs ih =>
    have hc : ¬ c = ' ' := fun e => h (e ▸ List.mem_cons_self c cs)
    have hcs : ' ' ∉ cs := fun hm => h (List.mem_cons_of_mem _ hm)
    simp [replaceFirstSpace, hc, ih hcs]

theorem replaceFirstSpace_append (a b : List Char) (ha : ' ' ∉ a) :
    replaceFirstSpace (a ++ ' ' :: b) = a ++ '-' :: b := by
  induction a with
  | nil => simp [replaceFirstSpace]
  | cons c cs ih =>
    have hc : ¬ c = ' ' := fun e => ha (e ▸ List.mem_cons_self c cs)
    have hcs : ' ' ∉ cs := fun hm => ha (List.mem_cons_of_mem _ hm)
    simp [replaceFirstSpace, hc, ih hcs]

/-! ### Claim theorems: URL normalization and tag identifiers -/

/-- C6: for every target URL (a string starting with the `http://` or
`https://` scheme), `buildUrlFileName` strips the scheme, replaces every
slash with a hyphen and trims a trailing hyphen; in particular
`https://example.com/path/` maps to run directory `./data/example.com-path`
and `http://example.com` to `./data/example.com`, with no trailing hyphen. -/
theorem buildUrlFileName_spec_C6 :
    (∀ url : String,
        url.toList.take 8 = httpsChars ∨ url.toList.take 7 = httpChars →
        buildUrlFileName url = specNormalizeUrl url)
    ∧ screenshotDirOf "https://example.com/path/" = "./data/example.com-path"
    ∧ screenshotDirOf "http://example.com" = "./data/example.com" := by
  refine ⟨fun url h => ?_, by decide, by decide⟩
  unfold buildUrlFileName specNormalizeUrl
  rw [stripScheme_eq_dropSchemePrefix _ h]

/-- Witness for C6 at the concrete URL `https://example.com/path/`. -/
theorem buildUrlFileName_spec_C6_witness :
    buildUrlFileName "https://example.com/path/" = specNormalizeUrl "https://example.com/path/" :=
  buildUrlFileName_spec_C6.1 "https://example.com/path/" (Or.inl (by decide))

/-- C10 counterexample: `buildUrlFileName` is not idempotent.  For
`http://a//` the output is `a-` (only one trailing hyphen is trimmed), and
a second application trims the remaining hyphen, giving `a`. -/
theorem buildUrlFileName_not_idempotent_C10 :
    buildUrlFileName (buildUrlFileName "http://a//") ≠ buildUrlFileName "http://a//" := by
  decide

/-- C10 amended: `buildUrlFileName` is idempotent on every input whose
output does not end in a hyphen (the output never contains a scheme or a
slash, so only the single trailing-hyphen trim can make a second
application differ). -/
theorem buildUrlFileName_idempotent_C10 (url : String)
    (h : (buildUrlFileName url).toList.getLast? ≠ some '-') :
    buildUrlFileName (buildUrlFileName url) = buildUrlFileName url := by
  have hL : (buildUrlFileName url).toList
      = trimTrailingHyphen (replaceSlashes (stripScheme url.toList)) := rfl
  have hns : '/' ∉ (buildUrlFileName url).toList := by
    rw [hL]
    intro hm
    exact slash_not_mem_replaceSlashes _ (trimTrailingHyphen_subset _ hm)
  show (⟨trimTrailingHyphen (replaceSlashes (stripScheme (buildUrlFileName url).toList))⟩ : String)
      = buildUrlFileName url
  rw [stripScheme_of_no_slash _ hns, replaceSlashes_of_no_slash _ hns,
    trimTrailingHyphen, if_neg h]
  rfl

/-- Witness for the amended C10 at `http://example.com`. -/
theorem buildUrlFileName_idempotent_C10_witness :
    buildUrlFileName (buildUrlFileName "http://example.com") = buildUrlFileName "http://example.com" :=
  buildUrlFileName_idempotent_C10 "http://example.com" (by decide)

/-- C8 counterexample: for the selector-group string `a b`, the code's
identifier is `a-b` (first space replaced by a hyphen), not `ab` (all
whitespace removed) as the claim states. -/
theorem buildTagSafe_counterexample_C8 :
    buildTagSafe "a b" = "a-b" ∧ specTagSafe "a b" = "ab"
    ∧ buildTagSafe "a b" ≠ specTagSafe "a b" := by
  decide

/-- C8 amended: the derived identifier is the group's first comma-separated
selector with its FIRST space (if any) replaced by a hyphen: it equals the
first selector when that selector has no space, and for a first selector of
the form `a ++ ' ' :: b` with no space in `a` it equals `a ++ '-' :: b`. -/
theorem buildTagSafe_amended_C8 (tag : String) :
    (' ' ∉ firstSelector tag → buildTagSafe tag = ⟨firstSelector tag⟩)
    ∧ ∀ a b : List Char, firstSelector tag = a ++ ' ' :: b → ' ' ∉ a →
        buildTagSafe tag = ⟨a ++ '-' :: b⟩ := by
  constructor
  · intro h
    show (⟨replaceFirstSpace (firstSelector tag)⟩ : String) = _
    rw [replaceFirstSpace_of_no_space _ h]
  · intro a b hab ha
    show (⟨replaceFirstSpace (firstSelector tag)⟩ : String) = _
    rw [hab, replaceFirstSpace_append a b ha]

/-- Witness for the amended C8: a first selector without a space is kept
verbatim, and one with a space gets its space hyphenated. -/
theorem buildTagSafe_amended_C8_witness :
    buildTagSafe "header, #header" = "header" ∧ buildTagSafe "a b,c" = "a-b" :=
  ⟨(buildTagSafe_amended_C8 "header, #header").1 (by decide),
   (buildTagSafe_amended_C8 "a b,c").2 ['a'] ['b'] (by decide) (by decide)⟩

/-! ## Color extraction fan-out (crawler.js lines 230-284)

`promiseAllRelevantColors` maps `promiseRelevantColors` over `config.tags`,
awaits all tasks with `Promise.all`, filters the settled result list with
`filterArray` and writes the survivors.  `Promise.all` is modelled by its
slot-filling semantics: each task settlement is an event `(i, v)` that
stores value `v` at index `i`, events arriving in an arbitrary completion
order; the delivered list reads the slots back in input order. -/

structure ColorResult where
  tag : String
  colors : List (Nat × Nat × Nat)

deriving instance DecidableEq for ColorResult

/-- `filterArray = function( e ){ return !!e; }` (crawler.js line 448):
JS truthiness of a ColorResult-or-null value. -/
def filterArray (e : Option ColorResult) : Bool :=
  e.isSome

/-- Slot contents after processing the settlement events in completion
order. -/
def settleSlots (n : Nat) (events : List (Fin n × Option ColorResult)) :
    Fin n → Option (Option ColorResult) :=
  events.foldl (fun a ev => fun j => if j = ev.1 then some ev.2 else a j) (fun _ => none)

/-- The list `Promise.all` delivers: every slot's stored value, read back
in input (Region Catalog) order. -/
def promiseAllResults (n : Nat) (events : List (Fin n × Option ColorResult)) :
    List (Option ColorResult) :=
  (List.finRange n).map (fun i => (settleSlots n events i).getD none)

/-- Embedding of the aggregation in `promiseAllRelevantColors`
(crawler.js lines 230-238): `res.filter( filterArray )` applied to the
list `Promise.all` delivered. -/
def promiseAllRelevantColors (n : Nat) (events : List (Fin n × Option ColorResult)) :
    List (Option ColorResult) :=
  (promiseAllResults n events).filter filterArray

/-- Outcome of one fan-out task: the promise either resolves with a
ColorResult-or-null, or never settles. -/
inductive TaskOutcome where
  | resolved (r : Option ColorResult)
  | pending

deriving instance DecidableEq for TaskOutcome

/-- Embedding of `promiseRelevantColors` (crawler.js lines 250-284).  The
`fs.stat` answer is an explicit input (`none` = the file does not exist,
`some sz` = it exists with size `sz`), as is the data handed to the
`getColors` callback; the returned Bool records whether `fs.unlink` was
called on the screenshot path. -/
def promiseRelevantColors (tag : String) (statSize : Option Nat)
    (extracted : Option (List (Nat × Nat × Nat))) : TaskOutcome × Bool :=
  match statSize with
  | some sz =>
    if sz > 0 then
      match extracted with
      | some cs => (TaskOutcome.resolved (some { tag := buildTagSafe tag, colors := cs }), false)
      | none => (TaskOutcome.pending, false)
    else (TaskOutcome.resolved none, true)
  | none => (TaskOutcome.resolved none, false)

/-! ### Lemmas about the fan-out -/

theorem foldl_settle (n : Nat) (events : List (Fin n × Option ColorResult))
    (acc : Fin n → Option (Option ColorResult)) (i : Fin n) (v : Option ColorResult)
    (hmem : (i, v) ∈ events ∨ acc i = some v)
    (huniq : ∀ w, (i, w) ∈ events → w = v) :
    events.foldl (fun a ev => fun j => if j = ev.1 then some ev.2 else a j) acc i = some v := by
  induction events generalizing acc with
  | nil =>
    rcases hmem with h | h
    · cases h
    · exact h
  | cons e es ih =>
    apply ih
    · by_cases hji : i = e.1
      · have hv : e.2 = v := huniq e.2 (by rw [hji, Prod.mk.eta]; exact List.mem_cons_self _ _)
        right
        show (if i = e.1 then some e.2 else acc i) = some v
        rw [if_pos hji, hv]
      · rcases hmem with h | h
        · rcases List.mem_cons.mp h with h1 | h2
          · exact absurd (congrArg Prod.fst h1) hji
          · exact Or.inl h2
        · right
          show (if i = e.1 then some e.2 else acc i) = some v
          rw [if_neg hji]
          exact h
    · exact fun w hw => huniq w (List.mem_cons_of_mem _ hw)

theorem settleSlots_eq (n : Nat) (f : Fin n → Option ColorResult)
    (events : List (Fin n × Option ColorResult))
    (hperm : events.Perm ((List.finRange n).map (fun i => (i, f i))))
    (i : Fin n) : settleSlots n events i = some (f i) := by
  apply foldl_settle
  · left
    rw [hperm.mem_iff]
    exact List.mem_map.mpr ⟨i, List.mem_finRange i, rfl⟩
  · intro w hw
    rcases List.mem_map.mp (hperm.subset hw) with ⟨j, _, hj⟩
    have hji : j = i := congrArg Prod.fst hj
    have hv : f j = w := congrArg Prod.snd hj
    rw [hji] at hv
    exact hv.symm

theorem filter_filterArray_eq (l : List (Option ColorResult)) :
    l.filter filterArray = (l.filterMap id).map some := by
  induction l with
  | nil => rfl
  | cons o t ih => cases o <;> simp [filterArray, List.filter_cons, ih]

/-! ### Claim theorems: fan-out aggregation and per-region task -/

/-- C1: for a Region Catalog of size `n` and any assignment `f` of
ColorResult-or-null outcomes to the per-region tasks, whatever the order
in which the tasks settle (any permutation of the `(index, outcome)`
events), the aggregated output equals exactly the non-null results in
catalog order. -/
theorem promiseAllRelevantColors_C1 (n : Nat) (f : Fin n → Option ColorResult)
    (events : List (Fin n × Option ColorResult))
    (hperm : events.Perm ((List.finRange n).map (fun i => (i, f i)))) :
    promiseAllRelevantColors n events
      = (((List.finRange n).map f).filterMap id).map some := by
  have hres : promiseAllResults n events = (List.finRange n).map f := by
    apply List.map_congr_left
    intro i _
    rw [settleSlots_eq n f events hperm i]
    rfl
  rw [promiseAllRelevantColors, hres, filter_filterArray_eq]

def sampleResult : ColorResult :=
  { tag := "body", colors := [(1, 2, 3)] }

def sampleAssignment : Fin 2 → Option ColorResult :=
  fun i => if i = 0 then some sampleResult else none

/-- Witness for C1: two regions, the second settling before the first; the
aggregate keeps only the non-null first-region result, in catalog order. -/
theorem promiseAllRelevantColors_C1_witness :
    promiseAllRelevantColors 2 [(1, none), (0, some sampleResult)] = [some sampleResult] := by
  exact promiseAllRelevantColors_C1 2 sampleAssignment
    [(1, none), (0, some sampleResult)] (by decide)

/-- C5: a missing screenshot file makes the task resolve with null (no
rejection, no deletion); a zero-byte file is deleted and the task resolves
with null; and a null result never survives the aggregation filter, so in
both cases the region is excluded from the aggregated colors output. -/
theorem promiseRelevantColors_C5 (tag : String) (extracted : Option (List (Nat × Nat × Nat))) :
    promiseRelevantColors tag none extracted = (TaskOutcome.resolved none, false)
    ∧ promiseRelevantColors tag (some 0) extracted = (TaskOutcome.resolved none, true)
    ∧ ∀ res : List (Option ColorResult), (none : Option ColorResult) ∉ res.filter filterArray := by
  refine ⟨rfl, rfl, fun res hmem => ?_⟩
  have hp := List.of_mem_filter hmem
  simp [filterArray] at hp

/-- Witness for C5 at the region `body` with concrete extraction data. -/
theorem promiseRelevantColors_C5_witness :
    promiseRelevantColors "body" none (some [(1, 2, 3)]) = (TaskOutcome.resolved none, false)
    ∧ promiseRelevantColors "body" (some 0) (some [(1, 2, 3)]) = (TaskOutcome.resolved none, true) :=
  ⟨(promiseRelevantColors_C5 "body" (some [(1, 2, 3)])).1,
   (promiseRelevantColors_C5 "body" (some [(1, 2, 3)])).2.1⟩

/-! ## Selector resolution and bounding box (crawler.js lines 85-156)

`getBoundingRectangle` runs inside the page.  An element is modelled by
the individual selectors it matches, its layout rectangle (JS numbers as
rationals) and the parseInt-ed computed paddings.  The injected
`isVisible` predicate is an explicit input; `amd` says whether the host
page uses requirejs (the `define.amd` branch of `checkVisible`). -/

structure Elem where
  sels : List String
  left : Rat
  top : Rat
  width : Rat
  height : Rat
  pl : Int
  pr : Int
  pt : Int
  pb : Int

deriving instance DecidableEq for Elem

/-- A JS value returned by the visibility check: a boolean, or a pending
Promise object. -/
inductive VisValue where
  | bool (b : Bool)
  | promise

deriving instance DecidableEq for VisValue

/-- JS truthiness of such a value: any Promise object is truthy. -/
def truthy : VisValue → Bool
  | VisValue.bool b => b
  | VisValue.promise => true

/-- Embedding of `checkVisible` (crawler.js lines 97-113): on an AMD
(requirejs) page it returns a new Promise that will later resolve with
`isVisible( el )`; otherwise it returns `isVisible( el )` directly. -/
def checkVisible (amd : Bool) (isVisible : Elem → Bool) (el : Elem) : VisValue :=
  if amd then VisValue.promise else VisValue.bool (isVisible el)

/-- The candidate loop of `getBoundingRectangle` (crawler.js lines
116-131): walk the matched elements in order and accept the first whose
`checkVisible` value is truthy. -/
def findVisibleElem (amd : Bool) (isVisible : Elem → Bool) : List Elem → Option Elem
  | [] => none
  | el :: els =>
    if truthy (checkVisible amd isVisible el) then some el
    else findVisibleElem amd isVisible els

/-- `document.querySelectorAll( tag )` with `tag` the whole comma-separated
group: the elements matching ANY selector of the group, in document (DOM)
order. -/
def querySelectorAll (doc : List Elem) (group : List String) : List Elem :=
  doc.filter (fun e => group.any (fun s => e.sels.contains s))

/-- The element-selection part of `getBoundingRectangle`: the first
truthy-visible element of the document-order `querySelectorAll` result. -/
def selectorResolution (amd : Bool) (isVisible : Elem → Bool) (doc : List Elem)
    (group : List String) : Option Elem :=
  findVisibleElem amd isVisible (querySelectorAll doc group)

structure Rect where
  x : Int
  y : Int
  width : Int
  height : Int

deriving instance DecidableEq for Rect

/-- Embedding of `getBoundingRectangle` (crawler.js lines 85-156): resolve
an element, then floor its layout rectangle extended by the parsed
paddings (`paddedWidth`, `paddedHeight`). -/
def getBoundingRectangle (amd : Bool) (isVisible : Elem → Bool) (doc : List Elem)
    (group : List String) : Option Rect :=
  match selectorResolution amd isVisible doc group with
  | some el =>
    let paddedWidth := el.width + (el.pl : Rat) + (el.pr : Rat)
    let paddedHeight := el.height + (el.pt : Rat) + (el.pb : Rat)
    some { x := Int.floor el.left, y := Int.floor el.top,
           width := Int.floor paddedWidth, height := Int.floor paddedHeight }
  | none => none

/-- Spec-side Selector Resolution, following the spec's words: the first
element, ordered first by position of the matching selector within the
group and then by DOM order, that is matched and visible. -/
def specSelectorResolution (isVisible : Elem → Bool) (doc : List Elem)
    (group : List String) : Option Elem :=
  group.findSome? (fun s => (doc.filter (fun e => e.sels.contains s && isVisible e)).head?)

/-! ### Lemmas and claim theorems: selector resolution -/

theorem findVisibleElem_filter (isVisible : Elem → Bool) (p : Elem → Bool) (doc : List Elem) :
    findVisibleElem false isVisible (doc.filter p)
      = doc.find? (fun e => p e && isVisible e) := by
  induction doc with
  | nil => rfl
  | cons e es ih =>
    by_cases hp : p e
    · by_cases hv : isVisible e <;>
        simp [List.filter_cons, hp, findVisibleElem, checkVisible, truthy, hv,
          List.find?_cons, ih]
    · simp [List.filter_cons, hp, List.find?_cons, ih]

def elemA : Elem :=
  { sels := ["#header"], left := 0, top := 0, width := 10, height := 10,
    pl := 0, pr := 0, pt := 0, pb := 0 }

def elemB : Elem :=
  { sels := ["header"], left := 1, top := 1, width := 20, height := 20,
    pl := 0, pr := 0, pt := 0, pb := 0 }

/-- C2 counterexample: with document order `[elemA, elemB]`, where `elemA`
matches only the second selector `#header` of the group and `elemB` only
the first selector `header`, and both are visible, the code resolves
`elemA` (document order decides), while the claimed
selector-position-then-DOM order requires `elemB`. -/
theorem selectorResolution_counterexample_C2 :
    selectorResolution false (fun _ => true) [elemA, elemB] ["header", "#header"] = some elemA
    ∧ specSelectorResolution (fun _ => true) [elemA, elemB] ["header", "#header"] = some elemB
    ∧ elemA ≠ elemB := by
  decide

/-- C2 amended: Selector Resolution (with a synchronous visibility
predicate) returns the first element in DOCUMENT order, among the
elements matching any selector of the group, that is visible; and it
returns null exactly when no matched element is visible. -/
theorem selectorResolution_amended_C2 (isVisible : Elem → Bool) (doc : List Elem)
    (group : List String) :
    selectorResolution false isVisible doc group
      = doc.find? (fun e => group.any (fun s => e.sels.contains s) && isVisible e)
    ∧ (selectorResolution false isVisible doc group = none ↔
        ∀ e ∈ doc, group.any (fun s => e.sels.contains s) = true → isVisible e = false) := by
  have hmain : selectorResolution false isVisible doc group
      = doc.find? (fun e => group.any (fun s => e.sels.contains s) && isVisible e) :=
    findVisibleElem_filter isVisible (fun e => group.any (fun s => e.sels.contains s)) doc
  refine ⟨hmain, ?_⟩
  rw [hmain, List.find?_eq_none]
  constructor
  · intro h e he hm
    have hb : ¬ ((group.any fun s => e.sels.contains s) = true ∧ isVisible e = true) := by
      intro hc
      exact h e he (by rw [Bool.and_eq_true]; exact hc)
    rcases Bool.eq_false_or_eq_true (isVisible e) with hv | hv
    · exact absurd ⟨hm, hv⟩ hb
    · exact hv
  · intro h e he hb
    rw [Bool.and_eq_true] at hb
    have hf := h e he hb.1
    rw [hf] at hb
    exact Bool.false_ne_true hb.2

/-- Witness for the amended C2 at a concrete document with an
all-visible predicate. -/
theorem selectorResolution_amended_C2_witness :
    selectorResolution false (fun _ => true) [elemA, elemB] ["header", "#header"]
      = [elemA, elemB].find?
          (fun e => (["header", "#header"].any fun s => e.sels.contains s) && (fun _ => true) e) :=
  (selectorResolution_amended_C2 (fun _ => true) [elemA, elemB] ["header", "#header"]).1

def invisibleElem : Elem :=
  { sels := ["header"], left := 0, top := 0, width := 10, height := 10,
    pl := 0, pr := 0, pt := 0, pb := 0 }

/-- C3 (code bug): on an AMD page `checkVisible` returns a pending
Promise, which is truthy, so the candidate loop accepts the first matched
element without awaiting — here an element whose visibility predicate is
`false` is accepted while its visibility value is an unresolved promise. -/
theorem checkVisible_bug_C3 :
    checkVisible true (fun _ => false) invisibleElem = VisValue.promise
    ∧ selectorResolution true (fun _ => false) [invisibleElem] ["header"] = some invisibleElem := by
  decide

/-- C4: whenever Selector Resolution yields an element, the computed
bounding box is x = ⌊left⌋, y = ⌊top⌋, width = ⌊width + pl + pr⌋ and
height = ⌊height + pt + pb⌋. -/
theorem getBoundingRectangle_C4 (amd : Bool) (isVisible : Elem → Bool) (doc : List Elem)
    (group : List String) (el : Elem)
    (h : selectorResolution amd isVisible doc group = some el) :
    getBoundingRectangle amd isVisible doc group
      = some { x := Int.floor el.left, y := Int.floor el.top,
               width := Int.floor (el.width + (el.pl : Rat) + (el.pr : Rat)),
               height := Int.floor (el.height + (el.pt : Rat) + (el.pb : Rat)) } := by
  unfold getBoundingRectangle
  rw [h]

def exampleElem : Elem :=
  { sels := ["header"], left := 7 / 2, top := 29 / 4, width := 100, height := 50,
    pl := 5, pr := 5, pt := 0, pb := 0 }

/-- Witness for C4 at the spec's example: a rectangle of width 100 and
height 50 with paddings left/right 5 and top/bottom 0 yields width 110 and
height 50, with x/y floored from the raw top-left (7/2, 29/4). -/
theorem getBoundingRectangle_C4_witness :
    getBoundingRectangle false (fun _ => true) [exampleElem] ["header"]
      = some { x := 3, y := 7, width := 110, height := 50 } := by
  rw [getBoundingRectangle_C4 false (fun _ => true) [exampleElem] ["header"] exampleElem rfl]
  simp only [exampleElem, Option.some.injEq, Rect.mk.injEq]
  norm_num

/-! ## Style sampling (scrapeStyles, crawler.js lines 338-361)

`scrapeStyles` runs one pass in the browser: for each raw tag string it
calls `document.querySelector( tag )` — which receives the WHOLE
comma-separated group and returns the first document-order element
matching any selector of it — and, on a hit, copies each configured
property out of the computed style into the result object under the raw
tag key.  The accumulated JS object is modelled as the association list
of its insertions in insertion order; a computed style is an association
list from property name to value. -/

structure StyleElem where
  sels : List String
  style : List (String × String)

deriving instance DecidableEq for StyleElem

/-- A `config.tags` entry: the raw selector-group string (the StyleRecord
key) together with the individual selectors the browser parses it into,
in group order. -/
structure RegionSpec where
  raw : String
  sels : List String

deriving instance DecidableEq for RegionSpec

/-- An element matches a selector group iff it matches any selector in it. -/
def matchesGroup (r : RegionSpec) (e : StyleElem) : Bool :=
  r.sels.any (fun s => e.sels.contains s)

/-- `document.querySelector( tag )`: the first element in document order
matching any selector of the group. -/
def querySelector (doc : List StyleElem) (r : RegionSpec) : Option StyleElem :=
  doc.find? (fun e => matchesGroup r e)

/-- `getComputedStyle( el )[ prop ]` under the association-list model. -/
def styleOf (e : StyleElem) (p : String) : String :=
  (e.style.lookup p).getD ""

/-- Embedding of `scrapeStyles` (crawler.js lines 338-361). -/
def scrapeStyles (doc : List StyleElem) (tags : List RegionSpec) (props : List String) :
    List (String × List (String × String)) :=
  tags.filterMap (fun r =>
    (querySelector doc r).map (fun e => (r.raw, props.map (fun p => (p, styleOf e p)))))

/-! ### Lemmas and claim theorems: style sampling -/

theorem querySelector_isSome (doc : List StyleElem) (r : RegionSpec) :
    (querySelector doc r).isSome = doc.any (fun e => matchesGroup r e) := by
  rcases hq : querySelector doc r with _ | e
  · have hn := List.find?_eq_none.mp hq
    have hfalse : doc.any (fun e => matchesGroup r e) = false := by
      rw [Bool.eq_false_iff]
      intro ha
      rcases List.any_eq_true.mp ha with ⟨x, hx, hpx⟩
      exact hn x hx hpx
    rw [hfalse]
    rfl
  · have hp := List.find?_some hq
    have hm := List.mem_of_find?_eq_some hq
    have htrue : doc.any (fun e => matchesGroup r e) = true :=
      List.any_eq_true.mpr ⟨e, hm, hp⟩
    rw [htrue]
    rfl

theorem scrapeStyles_keys (doc : List StyleElem) (props : List String)
    (tags : List RegionSpec) :
    (scrapeStyles doc tags props).map Prod.fst
      = (tags.filter (fun r => doc.any (fun e => matchesGroup r e))).map RegionSpec.raw := by
  induction tags with
  | nil => rfl
  | cons r rs ih =>
    have hfa := querySelector_isSome doc r
    rcases hq : querySelector doc r with _ | e
    · rw [hq] at hfa
      have hcond : doc.any (fun e => matchesGroup r e) = false := hfa.symm
      show (List.filterMap _ (r :: rs)).map Prod.fst = _
      simp only [List.filterMap_cons, hq, Option.map_none', List.filter_cons, hcond,
        Bool.false_eq_true, if_false]
      exact ih
    · rw [hq] at hfa
      have hcond : doc.any (fun e => matchesGroup r e) = true := hfa.symm
      show (List.filterMap _ (r :: rs)).map Prod.fst = _
      simp only [List.filterMap_cons, hq, Option.map_some', List.filter_cons, hcond,
        if_true, List.map_cons]
      exact congrArg (List.cons r.raw) ih

def hdElem : StyleElem :=
  { sels := ["#header"], style := [("color", "red")] }

def headerRegion : RegionSpec :=
  { raw := "header, #header", sels := ["header", "#header"] }

/-- C7 counterexample: the primary selector `header` matches no element of
the document, yet `scrapeStyles` records an entry for the region, because
`querySelector` receives the whole group and the secondary selector
`#header` matches. -/
theorem scrapeStyles_counterexample_C7 :
    (scrapeStyles [hdElem] [headerRegion] ["color"]).map Prod.fst = ["header, #header"]
    ∧ ([hdElem].any (fun e => e.sels.contains "header")) = false := by
  decide

/-- C7 amended: the StyleRecord has an entry for a region exactly when ANY
selector of its group matches at least one DOM element — the record keys
are the raw group strings of the matched regions, in catalog order, so
no-match regions are omitted entirely — and each entry records every
requested property of the FIRST (document-order) element matching any
selector of the group, under the raw key. -/
theorem scrapeStyles_amended_C7 (doc : List StyleElem) (tags : List RegionSpec)
    (props : List String) :
    (scrapeStyles doc tags props).map Prod.fst
      = (tags.filter (fun r => doc.any (fun e => matchesGroup r e))).map RegionSpec.raw
    ∧ ∀ r ∈ tags, ∀ e, doc.find? (fun x => matchesGroup r x) = some e →
        (r.raw, props.map (fun p => (p, styleOf e p))) ∈ scrapeStyles doc tags props := by
  refine ⟨scrapeStyles_keys doc props tags, ?_⟩
  intro r hr e he
  refine List.mem_filterMap.mpr ⟨r, hr, ?_⟩
  show (querySelector doc r).map _ = _
  rw [show querySelector doc r = some e from he]
  rfl

/-- Witness for the amended C7 at a one-region, one-element document. -/
theorem scrapeStyles_amended_C7_witness :
    ("header, #header", [("color", "red")]) ∈ scrapeStyles [hdElem] [headerRegion] ["color"] := by
  exact (scrapeStyles_amended_C7 [hdElem] [headerRegion] ["color"]).2 headerRegion
    (by decide) hdElem (by decide)

/-! ## Screenshot sequencing (getScreenshot, crawler.js lines 170-198)

`getScreenshot` is a promise chain: evaluate region `count`'s bounding
rectangle; when non-null, scroll to it and capture the screenshot; then
either close the session (when `count === config.tags.length - 1`) or
recurse on `count + 1`.  Each browser call is awaited before the next is
issued, so the execution is the deterministic trace of issued operations,
embedded below; the second argument counts the regions remaining after
`count` (so `remaining = 0` exactly when `count` is the last index). -/

/-- Browser-session operations, in issue order. -/
inductive BrowserOp where
  | evaluate (i : Nat)
  | scrollTo (i : Nat)
  | screenshot (i : Nat)
  | endSession

deriving instance DecidableEq for BrowserOp

/-- The operations of one region's capture step: evaluate the bounding
rectangle, and when it is non-null (`resolves i`), scroll to it and
capture the screenshot. -/
def captureBlock (resolves : Nat → Bool) (i : Nat) : List BrowserOp :=
  BrowserOp.evaluate i ::
    (if resolves i then [BrowserOp.scrollTo i, BrowserOp.screenshot i] else [])

/-- Embedding of `getScreenshot` as its operation trace. -/
def getScreenshot (resolves : Nat → Bool) (count : Nat) : Nat → List BrowserOp
  | 0 => captureBlock resolves count ++ [BrowserOp.endSession]
  | remaining + 1 => captureBlock resolves count ++ getScreenshot resolves (count + 1) remaining

/-! ### Claim theorem: screenshot sequencing -/

theorem getScreenshot_shape (resolves : Nat → Bool) (remaining : Nat) : ∀ count : Nat,
    getScreenshot resolves count remaining
      = ((List.range' count (remaining + 1)).map (captureBlock resolves)).flatten
        ++ [BrowserOp.endSession] := by
  induction remaining with
  | zero =>
    intro count
    simp [getScreenshot, List.range'_one]
  | succ k ih =>
    intro count
    rw [getScreenshot, ih (count + 1)]
    conv_rhs => rw [List.range'_succ]
    rw [List.map_cons, List.flatten_cons, List.append_assoc]

/-- C9: the sequencing trace over a Region Catalog of size `n + 1` is
exactly the per-region capture blocks concatenated in catalog order,
followed by the single session close: no scroll or screenshot of region
`i + 1` is issued before region `i`'s block is complete, and the browser
session is closed only after the last region has been processed. -/
theorem getScreenshot_C9 (resolves : Nat → Bool) (n : Nat) :
    getScreenshot resolves 0 n
      = ((List.range (n + 1)).map (captureBlock resolves)).flatten ++ [BrowserOp.endSession] := by
  rw [getScreenshot_shape resolves n 0, List.range_eq_range']

/-- Witness for C9 at a three-region catalog where only the first region
resolves. -/
theorem getScreenshot_C9_witness :
    getScreenshot (fun i => i == 0) 0 2
      = ((List.range 3).map (captureBlock (fun i => i == 0))).flatten ++ [BrowserOp.endSession] :=
  getScreenshot_C9 (fun i => i == 0) 2

end StyleCrawler
